import Mathlib

/-!
Verification of the college fee-collection register (`app.py`).

The program is a Flask + SQLite application.  We embed its data model and
route handlers shallowly: the two SQLite tables become lists of records
held in a `DB` value, SQL statements become the corresponding list
operations, and each route handler's POST/GET logic becomes a Lean
function on `DB`.  Money (the `REAL` columns `total_fee` and `amount`)
is modelled as `Int`: every property below concerns only sums,
differences and order comparisons of amounts, which behave identically
over any ordered ring, so exact integer arithmetic is a faithful and
computable model of the decimal amounts the forms accept.  SQLite's
`LIKE` operator is modelled by `likeMatch` below, including its `%`/`_`
wildcards and its ASCII case folding.
-/

namespace CollegeFees

/-- A row of the `students` table (`init_db` in app.py). -/
structure Student where
  id : Nat
  name : String
  roll_no : String
  course : String
  year : String
  email : String
  phone : String
  total_fee : Int
  photo : Option String
  deriving Repr, DecidableEq

/-- A row of the `fees` table (`init_db` in app.py). -/
structure FeeEntry where
  id : Nat
  student_id : Nat
  amount : Int
  date : String
  mode : String
  remark : String
  deriving Repr, DecidableEq

/-- The database: both tables in insertion order plus the AUTOINCREMENT
counters (SQLite hands out ids 1, 2, 3, ... in insertion order). -/
structure DB where
  students : List Student
  fees : List FeeEntry
  nextStudentId : Nat
  nextFeeId : Nat
  deriving Repr, DecidableEq

/-- The freshly initialised database (`init_db`): both tables empty. -/
def initDB : DB := ⟨[], [], 1, 1⟩

/-- Error outcomes of the route handlers, named as in the specification:
`DuplicateKey` is the `sqlite3.IntegrityError` branch of `admission`,
`NotFound` is the "Roll number not found!" / "Student not found" branch. -/
inductive AppError where
  | DuplicateKey
  | NotFound
  | ValidationError
  deriving Repr, DecidableEq

/-- Helper for a `%` wildcard: try the rest of the pattern against the
text and against every shorter suffix of it. -/
def percentLoop (k : List Char → Bool) : List Char → Bool
  | [] => k []
  | d :: t => k (d :: t) || percentLoop k t

/-- SQLite `LIKE` on lists of characters: `%` matches any sequence, `_`
matches any single character, and ordinary characters compare
case-insensitively on ASCII letters (SQLite's default `LIKE` folds
exactly the ASCII range, as does `Char.toLower`). -/
def likeMatch : List Char → List Char → Bool
  | [], s => s.isEmpty
  | c :: ps, s =>
    if c == '%' then percentLoop (likeMatch ps) s
    else
      match s with
      | [] => false
      | d :: t => (c == '_' || c.toLower == d.toLower) && likeMatch ps t

instance {ε α : Type} [DecidableEq ε] [DecidableEq α] : DecidableEq (Except ε α) :=
  fun a b =>
    match a, b with
    | .ok x, .ok y => if h : x = y then .isTrue (by rw [h]) else .isFalse (by simp [h])
    | .error x, .error y => if h : x = y then .isTrue (by rw [h]) else .isFalse (by simp [h])
    | .ok _, .error _ => .isFalse (by simp)
    | .error _, .ok _ => .isFalse (by simp)

/-- Python's `str.strip()`: drop whitespace at both ends (spaces, tabs,
newlines — the characters search queries could carry). -/
def pyStrip (s : String) : String :=
  ⟨((s.toList.dropWhile Char.isWhitespace).reverse.dropWhile Char.isWhitespace).reverse⟩

/-- Python's `x or 0` applied to the `total_fee` column
(`s['total_fee'] or 0` in app.py): a falsy value (0.0) becomes 0. -/
def pyOrZero (x : Int) : Int := if x = 0 then 0 else x

/-- `IFNULL(SUM(amount),0)` over a list of fee rows. -/
def sumAmounts (l : List FeeEntry) : Int := (l.map (·.amount)).sum

/-- `SELECT IFNULL(SUM(amount),0) FROM fees WHERE student_id=?` — the
aggregation both the profile page and the reports run. -/
def paidOf (db : DB) (sid : Nat) : Int :=
  sumAmounts (db.fees.filter (fun f => f.student_id == sid))

/-- POST `/admission`: inserts the student; the `UNIQUE` constraint on
`roll_no` raises `sqlite3.IntegrityError` when the roll already exists,
which the handler reports as "Roll number already exists!"
(`DuplicateKey`).  No field validation is performed by the handler. -/
def admission (db : DB) (name roll course year email phone : String)
    (total_fee : Int) (photo : Option String) : Except AppError DB :=
  if db.students.any (fun s => s.roll_no == roll) then
    .error .DuplicateKey
  else
    .ok { db with
      students := db.students ++
        [⟨db.nextStudentId, name, roll, course, year, email, phone, total_fee, photo⟩],
      nextStudentId := db.nextStudentId + 1 }

/-- Observable outcome of a successful POST `/fees`: the new database,
the id of the inserted fee row (`c.lastrowid`), and how many delivery
attempts were made on the SMS and email channels. -/
structure FeesResult where
  db : DB
  fee_id : Nat
  smsAttempts : Nat
  emailAttempts : Nat
  deriving Repr, DecidableEq

/-- POST `/fees`: resolves the student by roll number ("Roll number not
found!" = `NotFound` otherwise), inserts the fee row, commits, and then
inside `try: ... except Exception: print(...)` sends an SMS when the
student's phone is truthy and an email when the email is truthy.
`smsFails`/`emailFails` say whether the corresponding send raises; a
raised exception aborts the rest of the `try` block (so a failed SMS
suppresses the email attempt) but is caught, and the handler redirects
to the receipt regardless.  No validation of `amount` is performed. -/
def feesPost (db : DB) (roll : String) (amount : Int) (mode remark now : String)
    (smsFails emailFails : Bool) : Except AppError FeesResult :=
  match db.students.find? (fun s => s.roll_no == roll) with
  | none => .error .NotFound
  | some stud =>
    let entry : FeeEntry := ⟨db.nextFeeId, stud.id, amount, now, mode, remark⟩
    let db' : DB := { db with fees := db.fees ++ [entry], nextFeeId := db.nextFeeId + 1 }
    let smsAtt : Nat := if stud.phone ≠ "" then 1 else 0
    let emailAtt : Nat :=
      if stud.email ≠ "" then (if stud.phone ≠ "" ∧ smsFails then 0 else 1) else 0
    .ok ⟨db', entry.id, smsAtt, emailAtt⟩

/-- POST `/student/<id>/delete`: `DELETE FROM fees WHERE student_id=?`
then `DELETE FROM students WHERE id=?`, in one transaction. -/
def delete_student (db : DB) (sid : Nat) : DB :=
  { db with
    fees := db.fees.filter (fun f => f.student_id != sid),
    students := db.students.filter (fun s => s.id != sid) }

/-- POST `/student/<id>/edit`: `UPDATE students SET ... WHERE id=?`;
the photo column is only touched when a new photo is uploaded, and
`roll_no` is never updated through this path. -/
def edit_student (db : DB) (sid : Nat) (name course year email phone : String)
    (total_fee : Int) (photo : Option String) : DB :=
  { db with students := db.students.map (fun s =>
      if s.id == sid then
        { s with name := name, course := course, year := year, email := email,
                 phone := phone, total_fee := total_fee,
                 photo := match photo with | some p => some p | none => s.photo }
      else s) }

/-- What GET `/student/<id>` renders. -/
structure Profile where
  s : Student
  fees : List FeeEntry
  paid : Int
  due : Int
  deriving Repr, DecidableEq

/-- GET `/student/<id>` (`student_profile` in app.py): "Student not
found" when the id is absent; otherwise the student's fee rows
(`ORDER BY id DESC`), `paid = IFNULL(SUM(amount),0)` over the student's
fee rows, and `due = (total_fee or 0) - paid` — recomputed from the fee
rows on every request, never read from a stored column. -/
def student_profile (db : DB) (sid : Nat) : Option Profile :=
  match db.students.find? (fun s => s.id == sid) with
  | none => none
  | some s =>
    let fs := (db.fees.filter (fun f => f.student_id == sid)).reverse
    let paid := sumAmounts (db.fees.filter (fun f => f.student_id == sid))
    some ⟨s, fs, paid, pyOrZero s.total_fee - paid⟩

/-- `SELECT * FROM fees WHERE student_id=? ORDER BY id DESC` — the
"list this student's fee entries" read path (fee rows are stored in
ascending-id insertion order, so descending id is `reverse`). -/
def listFeeEntries (db : DB) (sid : Nat) : List FeeEntry :=
  (db.fees.filter (fun f => f.student_id == sid)).reverse

/-- GET `/reports/dues` (`dues_report` in app.py): `q` is the raw query
parameter, `.strip()`ped; when truthy the students are filtered with
`roll_no LIKE '%q%' OR name LIKE '%q%'`, otherwise all students are
listed; `ORDER BY id DESC`; each row carries
`paid = IFNULL(SUM(amount),0)` and `due = (total_fee or 0) - paid`. -/
def dues_report (db : DB) (qArg : String) : List (Student × Int × Int) :=
  let q := pyStrip qArg
  let studs :=
    if q ≠ "" then
      (db.students.filter (fun s =>
        likeMatch ('%' :: (q.toList ++ ['%'])) s.roll_no.toList ||
        likeMatch ('%' :: (q.toList ++ ['%'])) s.name.toList)).reverse
    else db.students.reverse
  studs.map (fun s =>
    let paid := sumAmounts (db.fees.filter (fun f => f.student_id == s.id))
    (s, paid, pyOrZero s.total_fee - paid))

/-- GET `/export/dues` (`export_dues` in app.py): all students
`ORDER BY id` (ascending insertion order), and per row
`paid = IFNULL(SUM(amount),0)`, `due = (total_fee or 0) - paid` — the
same two expressions the profile page evaluates. -/
def export_dues (db : DB) : List (Student × Int × Int) :=
  db.students.map (fun s =>
    let paid := sumAmounts (db.fees.filter (fun f => f.student_id == s.id))
    (s, paid, pyOrZero s.total_fee - paid))

/-- What GET `/` renders. -/
structure Dashboard where
  total_students : Nat
  total_collection : Int
  today_collection : Int
  month_collection : Int
  deriving Repr, DecidableEq

/-- GET `/` (`dashboard` in app.py): student count, all-time collection,
and the `date LIKE today+'%'` / `date LIKE month+'%'` windowed sums,
where `today`/`month` are `strftime('%Y-%m-%d')` / `strftime('%Y-%m')`
of the server clock at request time. -/
def dashboard (db : DB) (today month : String) : Dashboard :=
  ⟨db.students.length,
   sumAmounts db.fees,
   sumAmounts (db.fees.filter (fun f => likeMatch (today.toList ++ ['%']) f.date.toList)),
   sumAmounts (db.fees.filter (fun f => likeMatch (month.toList ++ ['%']) f.date.toList))⟩

/-- The state-mutating requests, for reachability arguments. -/
inductive Op where
  | admission (name roll course year email phone : String) (total_fee : Int)
      (photo : Option String)
  | payment (roll : String) (amount : Int) (mode remark now : String)
      (smsFails emailFails : Bool)
  | delete (sid : Nat)
  | edit (sid : Nat) (name course year email phone : String) (total_fee : Int)
      (photo : Option String)

/-- Effect of one request on the database; a handler that errors out
leaves the database unchanged (the failed INSERT is rolled back). -/
def applyOp (db : DB) : Op → DB
  | .admission n r c y e p f ph =>
    match admission db n r c y e p f ph with
    | .ok db' => db'
    | .error _ => db
  | .payment roll a m rem now f1 f2 =>
    match feesPost db roll a m rem now f1 f2 with
    | .ok res => res.db
    | .error _ => db
  | .delete sid => delete_student db sid
  | .edit sid n c y e p f ph => edit_student db sid n c y e p f ph

/-- The database produced by a request history, starting from `init_db`. -/
def run (ops : List Op) : DB := ops.foldl applyOp initDB

/-- Referential integrity: every fee row points at an existing student. -/
def RefIntegrity (db : DB) : Prop :=
  ∀ f ∈ db.fees, ∃ s ∈ db.students, s.id = f.student_id

instance (db : DB) : Decidable (RefIntegrity db) := by
  unfold RefIntegrity; infer_instance

/-- Spec-side notion for the dues search: `q` occurs in `s` as a
case-insensitive (ASCII) substring. -/
def ciSubstring (q s : String) : Prop :=
  q.toList.map Char.toLower <:+: s.toList.map Char.toLower

instance (q s : String) : Decidable (ciSubstring q s) := by
  unfold ciSubstring; infer_instance

/-- Bookkeeping invariant of the AUTOINCREMENT columns: every stored
student id is below the next id to be handed out, and the stored rows
carry strictly increasing ids (insertion order = ascending id order). -/
def StudentIdsOk (db : DB) : Prop :=
  (∀ s ∈ db.students, s.id < db.nextStudentId) ∧
    List.Pairwise (fun a b => a.id < b.id) db.students

instance (db : DB) : Decidable (StudentIdsOk db) := by
  unfold StudentIdsOk; infer_instance

/-- Concrete data used to evaluate the definitions. -/
def alice : Student := ⟨1, "Alice", "CS101", "CS", "1", "a@ex.com", "999", 20000, none⟩

/-- A student with no registered phone and no registered email. -/
def bob : Student := ⟨2, "Bob", "CS102", "CS", "1", "", "", 20000, none⟩

/-- A concrete ledger: Alice and Bob, one payment of 5000 by Alice. -/
def sampleDB : DB :=
  ⟨[alice, bob], [⟨1, 1, 5000, "2026-10-01 10:00:00", "cash", ""⟩], 3, 2⟩

/-! ### Facts about ASCII case folding -/

/-- `Char.toLower` is the identity off the upper-case ASCII range. -/
theorem toLower_eq_self (d : Char) (h : ¬(65 ≤ d.toNat ∧ d.toNat ≤ 90)) :
    d.toLower = d := by
  unfold Char.toLower
  rw [if_neg h]

/-- On the upper-case ASCII range, `Char.toLower` adds 32 to the code. -/
theorem toLower_toNat_upper (d : Char) (h1 : 65 ≤ d.toNat) (h2 : d.toNat ≤ 90) :
    d.toLower.toNat = d.toNat + 32 := by
  unfold Char.toLower
  rw [if_pos ⟨h1, h2⟩]
  unfold Char.ofNat
  rw [dif_pos (Or.inl (by omega))]
  rfl

/-- Characters with code below 65 (digits, `-`, space, `:`) are fixed
points of case folding, and nothing else folds onto them. -/
theorem toLower_eq_iff (c d : Char) (hc : c.toNat < 65) :
    d.toLower = c ↔ d = c := by
  constructor
  · intro h
    by_cases hd : 65 ≤ d.toNat ∧ d.toNat ≤ 90
    · exfalso
      have h32 := toLower_toNat_upper d hd.1 hd.2
      rw [h] at h32
      omega
    · rwa [toLower_eq_self d hd] at h
  · intro h
    subst h
    exact toLower_eq_self d (by omega)

/-! ### Semantics of the `LIKE` patterns the handlers build -/

theorem likeMatch_nil_pat (s : List Char) : likeMatch [] s = s.isEmpty := by
  simp [likeMatch]

theorem likeMatch_percent_nil (ps : List Char) :
    likeMatch ('%' :: ps) [] = likeMatch ps [] := by
  simp [likeMatch, percentLoop]

theorem likeMatch_percent_cons (ps : List Char) (d : Char) (t : List Char) :
    likeMatch ('%' :: ps) (d :: t) =
      (likeMatch ps (d :: t) || likeMatch ('%' :: ps) t) := by
  simp [likeMatch, percentLoop]

theorem likeMatch_char_nil (c : Char) (ps : List Char) (h : c ≠ '%') :
    likeMatch (c :: ps) [] = false := by
  conv_lhs => rw [likeMatch]
  simp [h]

theorem likeMatch_char_cons (c : Char) (ps : List Char) (d : Char) (t : List Char)
    (h : c ≠ '%') :
    likeMatch (c :: ps) (d :: t) =
      ((c == '_' || c.toLower == d.toLower) && likeMatch ps t) := by
  conv_lhs => rw [likeMatch]
  simp [h]

/-- The pattern `%` alone matches everything. -/
theorem likeMatch_percent_all (s : List Char) : likeMatch ['%'] s = true := by
  induction s with
  | nil => rw [likeMatch_percent_nil, likeMatch_nil_pat]; rfl
  | cons d t ih => rw [likeMatch_percent_cons, ih]; simp

/-- A wildcard-free pattern with a trailing `%` performs a
case-insensitive starts-with test. -/
theorem likeMatch_trailing_percent (p : List Char) (hp : ∀ c ∈ p, c ≠ '%' ∧ c ≠ '_') :
    ∀ s : List Char,
      (likeMatch (p ++ ['%']) s = true ↔
        p.map Char.toLower <+: s.map Char.toLower) := by
  induction p with
  | nil =>
    intro s
    simpa using likeMatch_percent_all s
  | cons c p ih =>
    intro s
    obtain ⟨hc1, hc2⟩ := hp c (by simp)
    cases s with
    | nil =>
      rw [List.cons_append, likeMatch_char_nil _ _ hc1]
      simp
    | cons d t =>
      rw [List.cons_append, likeMatch_char_cons _ _ _ _ hc1]
      have hrec := ih (fun x hx => hp x (by simp [hx])) t
      simp [hc2, hrec, beq_iff_eq]

/-- A leading `%` matches iff some suffix of the text matches the rest
of the pattern. -/
theorem likeMatch_leading_percent (ps : List Char) :
    ∀ s : List Char,
      (likeMatch ('%' :: ps) s = true ↔ ∃ t, t <:+ s ∧ likeMatch ps t = true) := by
  intro s
  induction s with
  | nil =>
    rw [likeMatch_percent_nil]
    constructor
    · intro h
      exact ⟨[], List.suffix_rfl, h⟩
    · rintro ⟨t, ht, h⟩
      rwa [List.suffix_nil.mp ht] at h
  | cons d t ih =>
    rw [likeMatch_percent_cons]
    constructor
    · intro h
      rcases Bool.or_eq_true_iff.mp h with h | h
      · exact ⟨d :: t, List.suffix_rfl, h⟩
      · obtain ⟨u, hu, hm⟩ := ih.mp h
        exact ⟨u, hu.trans (List.suffix_cons d t), hm⟩
    · rintro ⟨u, hu, hm⟩
      rcases List.suffix_cons_iff.mp hu with rfl | hu
      · exact Bool.or_eq_true_iff.mpr (Or.inl hm)
      · exact Bool.or_eq_true_iff.mpr (Or.inr (ih.mpr ⟨u, hu, hm⟩))

/-- The pattern `%q%` (what `dues_report` builds from the search box)
with a wildcard-free `q` performs a case-insensitive substring test. -/
theorem likeMatch_contains (q : List Char) (hq : ∀ c ∈ q, c ≠ '%' ∧ c ≠ '_')
    (s : List Char) :
    likeMatch ('%' :: (q ++ ['%'])) s = true ↔
      q.map Char.toLower <:+: s.map Char.toLower := by
  rw [likeMatch_leading_percent]
  constructor
  · rintro ⟨t, ht, hm⟩
    rw [likeMatch_trailing_percent q hq t] at hm
    obtain ⟨v, hv⟩ := hm
    obtain ⟨u, hu⟩ := ht.map Char.toLower
    exact ⟨u, v, by rw [← hu, ← hv, List.append_assoc]⟩
  · rintro ⟨u, v, huv⟩
    have : (s.map Char.toLower) = u ++ (q.map Char.toLower ++ v) := by
      rw [← huv, List.append_assoc]
    rw [List.map_eq_append_iff] at this
    obtain ⟨l₁, l₂, rfl, _, hl₂⟩ := this
    refine ⟨l₂, ⟨l₁, rfl⟩, ?_⟩
    rw [likeMatch_trailing_percent q hq l₂, hl₂]
    exact ⟨v, rfl⟩

/-- For a pattern all of whose characters lie below code 65 (digits and
dashes, as in a `YYYY-MM-DD` date), the case-insensitive starts-with
test of `LIKE 'p%'` is the literal starts-with test. -/
theorem map_toLower_prefix_iff (p : List Char) (hp : ∀ c ∈ p, c.toNat < 65) :
    ∀ s : List Char, (p.map Char.toLower <+: s.map Char.toLower ↔ p <+: s) := by
  induction p with
  | nil => intro s; simp
  | cons c p ih =>
    intro s
    have hc := hp c (by simp)
    cases s with
    | nil => simp
    | cons d t =>
      have hrec := ih (fun x hx => hp x (by simp [hx])) t
      have hfix : c.toLower = c := toLower_eq_self c (by omega)
      simp only [List.map_cons, List.cons_prefix_cons, hrec, hfix]
      constructor
      · rintro ⟨h1, h2⟩
        exact ⟨((toLower_eq_iff c d hc).mp h1.symm).symm, h2⟩
      · rintro ⟨rfl, h2⟩
        exact ⟨hfix.symm, h2⟩

/-! ### Preservation of the store invariants by every request -/

theorem refIntegrity_delete (db : DB) (sid : Nat) (h : RefIntegrity db) :
    RefIntegrity (delete_student db sid) := by
  intro f hf
  simp only [delete_student, List.mem_filter] at hf
  obtain ⟨hf, hne⟩ := hf
  obtain ⟨s, hs, hid⟩ := h f hf
  refine ⟨s, ?_, hid⟩
  simp only [delete_student, List.mem_filter]
  refine ⟨hs, ?_⟩
  simpa [hid] using hne

theorem refIntegrity_edit (db : DB) (sid : Nat) (n c y e p : String) (fee : Int)
    (ph : Option String) (h : RefIntegrity db) :
    RefIntegrity (edit_student db sid n c y e p fee ph) := by
  intro f hf
  obtain ⟨s, hs, hid⟩ := h f hf
  refine ⟨_, List.mem_map_of_mem _ hs, ?_⟩
  by_cases hcase : s.id == sid
  · simp only [hcase, if_true]
    exact hid
  · simp only [hcase, if_false]
    exact hid

theorem refIntegrity_applyOp (db : DB) (op : Op) (h : RefIntegrity db) :
    RefIntegrity (applyOp db op) := by
  cases op with
  | admission n r c y e p fee ph =>
    simp only [applyOp, admission]
    by_cases hdup : db.students.any (fun s => s.roll_no == r)
    · simpa [hdup] using h
    · simp only [hdup, if_false]
      intro f hf
      obtain ⟨s, hs, hid⟩ := h f hf
      exact ⟨s, List.mem_append_left _ hs, hid⟩
  | payment roll a m rem now f1 f2 =>
    simp only [applyOp, feesPost]
    cases hfind : db.students.find? (fun s => s.roll_no == roll) with
    | none => simpa [hfind] using h
    | some stud =>
      simp only [hfind]
      intro f hf
      rcases List.mem_append.mp hf with hf | hf
      · obtain ⟨s, hs, hid⟩ := h f hf
        exact ⟨s, hs, hid⟩
      · have heq : f = ⟨db.nextFeeId, stud.id, a, now, m, rem⟩ := by simpa using hf
        subst heq
        exact ⟨stud, List.mem_of_find?_eq_some hfind, rfl⟩
  | delete sid => exact refIntegrity_delete db sid h
  | edit sid n c y e p fee ph => exact refIntegrity_edit db sid n c y e p fee ph h

theorem refIntegrity_foldl (l : List Op) :
    ∀ db : DB, RefIntegrity db → RefIntegrity (l.foldl applyOp db) := by
  induction l with
  | nil => intro db h; exact h
  | cons op l ih => intro db h; exact ih _ (refIntegrity_applyOp db op h)

theorem studentIdsOk_delete (db : DB) (sid : Nat) (h : StudentIdsOk db) :
    StudentIdsOk (delete_student db sid) := by
  obtain ⟨hb, hp⟩ := h
  constructor
  · intro s hs
    simp only [delete_student, List.mem_filter] at hs
    exact hb s hs.1
  · exact hp.filter _

theorem studentIdsOk_edit (db : DB) (sid : Nat) (n c y e p : String) (fee : Int)
    (ph : Option String) (h : StudentIdsOk db) :
    StudentIdsOk (edit_student db sid n c y e p fee ph) := by
  obtain ⟨hb, hp⟩ := h
  constructor
  · intro s hs
    simp only [edit_student, List.mem_map] at hs
    obtain ⟨a, ha, rfl⟩ := hs
    by_cases hcase : a.id == sid
    · simp only [hcase, if_true]
      exact hb a ha
    · simp only [hcase, if_false]
      exact hb a ha
  · rw [edit_student, List.pairwise_map]
    refine hp.imp_of_mem ?_
    intro a b _ _ hab
    by_cases h1 : a.id == sid <;> by_cases h2 : b.id == sid <;>
      simp only [h1, h2, if_true, if_false] <;> exact hab

theorem studentIdsOk_applyOp (db : DB) (op : Op) (h : StudentIdsOk db) :
    StudentIdsOk (applyOp db op) := by
  obtain ⟨hb, hp⟩ := h
  cases op with
  | admission n r c y e p fee ph =>
    simp only [applyOp, admission]
    by_cases hdup : db.students.any (fun s => s.roll_no == r)
    · simpa [hdup] using ⟨hb, hp⟩
    · simp only [hdup, Bool.false_eq_true, if_false]
      constructor
      · intro s hs
        rcases List.mem_append.mp hs with hs | hs
        · exact Nat.lt_succ_of_lt (hb s hs)
        · have : s = ⟨db.nextStudentId, n, r, c, y, e, p, fee, ph⟩ := by simpa using hs
          subst this
          exact Nat.lt_succ_self _
      · rw [List.pairwise_append]
        refine ⟨hp, List.pairwise_singleton _ _, ?_⟩
        intro a ha b hb'
        have : b = ⟨db.nextStudentId, n, r, c, y, e, p, fee, ph⟩ := by simpa using hb'
        subst this
        exact hb a ha
  | payment roll a m rem now f1 f2 =>
    simp only [applyOp, feesPost]
    cases hfind : db.students.find? (fun s => s.roll_no == roll) with
    | none => simpa [hfind] using ⟨hb, hp⟩
    | some stud =>
      simp only [hfind]
      exact ⟨hb, hp⟩
  | delete sid => exact studentIdsOk_delete db sid ⟨hb, hp⟩
  | edit sid n c y e p fee ph => exact studentIdsOk_edit db sid n c y e p fee ph ⟨hb, hp⟩

theorem studentIdsOk_foldl (l : List Op) :
    ∀ db : DB, StudentIdsOk db → StudentIdsOk (l.foldl applyOp db) := by
  induction l with
  | nil => intro db h; exact h
  | cons op l ih => intro db h; exact ih _ (studentIdsOk_applyOp db op h)

/-! ### Shape lemmas for the handlers -/

theorem pyOrZero_eq (x : Int) : pyOrZero x = x := by
  unfold pyOrZero
  split
  · rename_i h
    rw [h]
  · rfl

theorem feesPost_ok (db : DB) (roll : String) (a : Int) (m rem now : String)
    (f1 f2 : Bool) (stud : Student)
    (hfind : db.students.find? (fun s => s.roll_no == roll) = some stud) :
    feesPost db roll a m rem now f1 f2 =
      .ok ⟨{ db with
             fees := db.fees ++ [⟨db.nextFeeId, stud.id, a, now, m, rem⟩],
             nextFeeId := db.nextFeeId + 1 },
           db.nextFeeId,
           (if stud.phone ≠ "" then 1 else 0),
           (if stud.email ≠ "" then (if stud.phone ≠ "" ∧ f1 then 0 else 1) else 0)⟩ := by
  simp [feesPost, hfind]

theorem student_profile_eq (db : DB) (sid : Nat) (s : Student)
    (hfind : db.students.find? (fun t => t.id == sid) = some s) :
    student_profile db sid =
      some ⟨s, (db.fees.filter (fun f => f.student_id == sid)).reverse,
            paidOf db sid, s.total_fee - paidOf db sid⟩ := by
  simp [student_profile, hfind, paidOf, pyOrZero_eq]

theorem paidOf_insert (db : DB) (sid : Nat) (e : FeeEntry) (he : e.student_id = sid) :
    paidOf { db with fees := db.fees ++ [e], nextFeeId := db.nextFeeId + 1 } sid =
      paidOf db sid + e.amount := by
  simp [paidOf, sumAmounts, List.filter_append, he]

theorem bool_eq_decide {b : Bool} {P : Prop} [Decidable P] (h : b = true ↔ P) :
    b = decide P := by
  rcases Bool.eq_false_or_eq_true b with hb | hb <;> subst hb <;> simp_all

theorem digit_toNat_lt (c : Char) (h : c.isDigit = true) : c.toNat < 65 := by
  have h2 : c.val ≤ 57 := by
    simp only [Char.isDigit, Bool.and_eq_true, decide_eq_true_eq] at h
    exact h.2
  rw [UInt32.le_def, BitVec.le_def] at h2
  have h3 : c.toNat ≤ 57 := h2
  omega

theorem plain_toNat_lt (c : Char) (h : c.isDigit ∨ c = '-') : c.toNat < 65 := by
  rcases h with h | rfl
  · exact digit_toNat_lt c h
  · decide

theorem plain_not_wild (c : Char) (h : c.isDigit ∨ c = '-') : c ≠ '%' ∧ c ≠ '_' := by
  constructor <;> rintro rfl <;> rcases h with h | h <;> revert h <;> decide

theorem map_toLower_fixed (l : List Char) (h : ∀ c ∈ l, c.toNat < 65) :
    l.map Char.toLower = l := by
  induction l with
  | nil => rfl
  | cons c t ih =>
    simp only [List.map_cons]
    rw [toLower_eq_self c (by have := h c (by simp); omega),
        ih (fun x hx => h x (by simp [hx]))]

/-! ### The claims -/

/-- Claim C1: for every student, the profile's `due` equals `total_fee`
minus the sum of the amounts of the fee rows with this student's id,
recomputed from the rows; appending a fee row of amount `A` through the
payment path therefore decreases `due` by exactly `A`. -/
theorem C1_derived_balance (db : DB) (s : Student) (amount : Int)
    (mode remark now : String) (f1 f2 : Bool)
    (hid : db.students.find? (fun t => t.id == s.id) = some s)
    (hroll : db.students.find? (fun t => t.roll_no == s.roll_no) = some s) :
    ∃ (pr pr' : Profile) (res : FeesResult),
      student_profile db s.id = some pr ∧
      pr.due = s.total_fee -
        ((db.fees.filter (fun f => f.student_id == s.id)).map (·.amount)).sum ∧
      feesPost db s.roll_no amount mode remark now f1 f2 = .ok res ∧
      student_profile res.db s.id = some pr' ∧
      pr'.due = pr.due - amount := by
  refine ⟨_, _, _, student_profile_eq db s.id s hid, rfl,
    feesPost_ok db s.roll_no amount mode remark now f1 f2 s hroll,
    student_profile_eq _ s.id s hid, ?_⟩
  have hins := paidOf_insert db s.id ⟨db.nextFeeId, s.id, amount, now, mode, remark⟩ rfl
  simp only [hins]
  omega

/-- Witness for C1: Alice owes 20000, has paid 5000; a further payment
of 1000 moves her due from 15000 to 14000. -/
theorem C1_derived_balance_witness :
    (sampleDB.students.find? (fun t => t.id == alice.id) = some alice) ∧
    (sampleDB.students.find? (fun t => t.roll_no == alice.roll_no) = some alice) ∧
    ∃ (pr pr' : Profile) (res : FeesResult),
      student_profile sampleDB alice.id = some pr ∧
      pr.due = alice.total_fee -
        ((sampleDB.fees.filter (fun f => f.student_id == alice.id)).map (·.amount)).sum ∧
      feesPost sampleDB alice.roll_no 1000 "cash" "" "2026-10-12 10:00:00" false false =
        .ok res ∧
      student_profile res.db alice.id = some pr' ∧
      pr'.due = pr.due - 1000 :=
  ⟨by decide, by decide,
   C1_derived_balance sampleDB alice 1000 "cash" "" "2026-10-12 10:00:00" false false
     (by decide) (by decide)⟩

/-- Counterexample to C2: the fees POST path performs no amount
validation.  With amount `-10 ≤ 0` against Alice's roll the handler
succeeds (no `ValidationError`) and inserts the fee row — the ledger is
mutated. -/
theorem C2_counterexample :
    (-10 : Int) ≤ 0 ∧
    feesPost sampleDB "CS101" (-10) "cash" "" "2026-10-12 10:00:00" false false =
      .ok ⟨⟨sampleDB.students,
            [⟨1, 1, 5000, "2026-10-01 10:00:00", "cash", ""⟩,
             ⟨2, 1, -10, "2026-10-12 10:00:00", "cash", ""⟩], 3, 3⟩, 2, 1, 1⟩ := by
  decide

/-- Claim C2 amended: the fees POST path performs no amount validation:
for every payment request whose roll resolves — in particular one whose
amount is ≤ 0 — it succeeds, the fee row is inserted (the ledger is
mutated), and every student record is unchanged. -/
theorem C2_no_amount_validation (db : DB) (roll : String) (amount : Int)
    (m rem now : String) (f1 f2 : Bool) (stud : Student)
    (hfind : db.students.find? (fun s => s.roll_no == roll) = some stud)
    (hle : amount ≤ 0) :
    ∃ res : FeesResult,
      feesPost db roll amount m rem now f1 f2 = .ok res ∧
      res.db.fees = db.fees ++ [⟨db.nextFeeId, stud.id, amount, now, m, rem⟩] ∧
      res.db.students = db.students :=
  ⟨_, feesPost_ok db roll amount m rem now f1 f2 stud hfind, rfl, rfl⟩

/-- Witness for C2 amended: a −10 payment on Alice's roll goes through
and lands in the ledger. -/
theorem C2_no_amount_validation_witness :
    (sampleDB.students.find? (fun s => s.roll_no == "CS101") = some alice) ∧
    (-10 : Int) ≤ 0 ∧
    ∃ res : FeesResult,
      feesPost sampleDB "CS101" (-10) "cash" "" "2026-10-12 10:00:00" false false =
        .ok res ∧
      res.db.fees = sampleDB.fees ++
        [⟨sampleDB.nextFeeId, alice.id, -10, "2026-10-12 10:00:00", "cash", ""⟩] ∧
      res.db.students = sampleDB.students :=
  ⟨by decide, by decide,
   C2_no_amount_validation sampleDB "CS101" (-10) "cash" "" "2026-10-12 10:00:00"
     false false alice (by decide) (by decide)⟩

/-- Claim C3: creating a second student with an existing roll number fails
with `DuplicateKey` and leaves the database — in particular the stored
record of the original holder of that roll — exactly as it was. -/
theorem C3_duplicate_roll (db : DB) (s₀ : Student) (n c y e p : String)
    (fee : Int) (ph : Option String) (hs : s₀ ∈ db.students) :
    admission db n s₀.roll_no c y e p fee ph = .error .DuplicateKey ∧
    applyOp db (.admission n s₀.roll_no c y e p fee ph) = db ∧
    s₀ ∈ (applyOp db (.admission n s₀.roll_no c y e p fee ph)).students := by
  have hdup : db.students.any (fun s => s.roll_no == s₀.roll_no) = true :=
    List.any_eq_true.mpr ⟨s₀, hs, by simp⟩
  have h1 : admission db n s₀.roll_no c y e p fee ph = .error .DuplicateKey := by
    simp [admission, hdup]
  have h2 : applyOp db (.admission n s₀.roll_no c y e p fee ph) = db := by
    simp only [applyOp, h1]
  exact ⟨h1, h2, by rw [h2]; exact hs⟩

/-- Witness for C3: re-admitting roll "CS101" fails and changes nothing. -/
theorem C3_duplicate_roll_witness :
    alice ∈ sampleDB.students ∧
    (admission sampleDB "Eve" alice.roll_no "EE" "2" "e@x" "8" 9000 none =
        .error .DuplicateKey ∧
      applyOp sampleDB (.admission "Eve" alice.roll_no "EE" "2" "e@x" "8" 9000 none) =
        sampleDB ∧
      alice ∈ (applyOp sampleDB
        (.admission "Eve" alice.roll_no "EE" "2" "e@x" "8" 9000 none)).students) :=
  ⟨by decide, C3_duplicate_roll sampleDB alice "Eve" "EE" "2" "e@x" "8" 9000 none
    (by decide)⟩

/-- Claim C4: referential integrity is an invariant of every operation —
every reachable database satisfies it; deleting a student removes all
of that student's fee rows, so listing them afterwards yields `[]`;
and the payment path inserts nothing unless the roll resolves to an
existing student. -/
theorem C4_referential_integrity (ops : List Op) (db : DB) (sid : Nat)
    (roll : String) (a : Int) (m rem now : String) (f1 f2 : Bool)
    (hroll : db.students.find? (fun s => s.roll_no == roll) = none) :
    RefIntegrity (run ops) ∧
    listFeeEntries (delete_student db sid) sid = [] ∧
    feesPost db roll a m rem now f1 f2 = .error .NotFound := by
  refine ⟨refIntegrity_foldl ops initDB ?_, ?_, ?_⟩
  · intro f hf
    simp [initDB] at hf
  · have hnil : (delete_student db sid).fees.filter (fun f => f.student_id == sid) = [] := by
      apply List.filter_eq_nil_iff.mpr
      intro f hf
      simp only [delete_student, List.mem_filter, bne_iff_ne, ne_eq] at hf
      simp [hf.2]
    simp [listFeeEntries, hnil]
  · simp [feesPost, hroll]

/-- Witness for C4: a small history ending in a deletion, plus a lookup
of an unknown roll. -/
theorem C4_referential_integrity_witness :
    (sampleDB.students.find? (fun s => s.roll_no == "NOPE") = none) ∧
    (RefIntegrity (run [.admission "A" "R1" "c" "y" "e" "p" 20000 none,
        .payment "R1" 500 "cash" "" "2026-01-01 00:00:00" false false,
        .delete 1]) ∧
      listFeeEntries (delete_student sampleDB 1) 1 = [] ∧
      feesPost sampleDB "NOPE" 5 "cash" "" "2026-01-01 00:00:00" false false =
        .error .NotFound) :=
  ⟨by decide,
   C4_referential_integrity
     [.admission "A" "R1" "c" "y" "e" "p" 20000 none,
      .payment "R1" 500 "cash" "" "2026-01-01 00:00:00" false false,
      .delete 1]
     sampleDB 1 "NOPE" 5 "cash" "" "2026-01-01 00:00:00" false false (by decide)⟩

/-- Claim C5: once the ledger write of a payment commits, the reported
outcome and the resulting database are independent of whether either
notification send raises (the exception is caught inside the handler);
and a student with no phone (resp. no email) gets zero delivery
attempts on that channel while the payment still succeeds. -/
theorem C5_notifications_isolated (db : DB) (roll : String) (a : Int)
    (m rem now : String) (f1 f2 : Bool) (stud : Student)
    (hfind : db.students.find? (fun s => s.roll_no == roll) = some stud) :
    ∃ res res' : FeesResult,
      feesPost db roll a m rem now f1 f2 = .ok res ∧
      feesPost db roll a m rem now false false = .ok res' ∧
      res.db = res'.db ∧ res.fee_id = res'.fee_id ∧
      (stud.phone = "" → res.smsAttempts = 0) ∧
      (stud.email = "" → res.emailAttempts = 0) := by
  refine ⟨_, _, feesPost_ok db roll a m rem now f1 f2 stud hfind,
    feesPost_ok db roll a m rem now false false stud hfind, rfl, rfl, ?_, ?_⟩
  · intro h
    simp [h]
  · intro h
    simp [h]

/-- Witness for C5: Bob has neither phone nor email; a payment on his
roll succeeds with zero delivery attempts, also when the (never
reached) sends would fail. -/
theorem C5_notifications_isolated_witness :
    (sampleDB.students.find? (fun s => s.roll_no == "CS102") = some bob) ∧
    ∃ res res' : FeesResult,
      feesPost sampleDB "CS102" 700 "upi" "" "2026-10-12 11:00:00" true true = .ok res ∧
      feesPost sampleDB "CS102" 700 "upi" "" "2026-10-12 11:00:00" false false = .ok res' ∧
      res.db = res'.db ∧ res.fee_id = res'.fee_id ∧
      (bob.phone = "" → res.smsAttempts = 0) ∧
      (bob.email = "" → res.emailAttempts = 0) :=
  ⟨by decide,
   C5_notifications_isolated sampleDB "CS102" 700 "upi" "" "2026-10-12 11:00:00"
     true true bob (by decide)⟩

/-- Claim C6: the dues export and the student profile page compute the
same `paid`/`due` figures for the same student from the same ledger —
any row of the export whose student is `s` carries exactly the
profile's figures. -/
theorem C6_export_profile_agree (db : DB) (s : Student)
    (hs : s ∈ db.students)
    (hfind : db.students.find? (fun t => t.id == s.id) = some s) :
    ∃ pr : Profile,
      student_profile db s.id = some pr ∧
      (s, pr.paid, pr.due) ∈ export_dues db ∧
      ∀ p d : Int, (s, p, d) ∈ export_dues db → p = pr.paid ∧ d = pr.due := by
  refine ⟨_, student_profile_eq db s.id s hfind, ?_, ?_⟩
  · have hm := List.mem_map_of_mem
      (fun t : Student => (t, paidOf db t.id, pyOrZero t.total_fee - paidOf db t.id)) hs
    simpa [export_dues, paidOf, pyOrZero_eq] using hm
  · intro p d hmem
    simp only [export_dues, List.mem_map, Prod.mk.injEq] at hmem
    obtain ⟨t, _, rfl, hp, hd⟩ := hmem
    constructor
    · rw [← hp]
      rfl
    · rw [← hd]
      simp [paidOf, pyOrZero_eq]

/-- Witness for C6: Alice's export row and profile agree on
(paid, due) = (5000, 15000). -/
theorem C6_export_profile_agree_witness :
    alice ∈ sampleDB.students ∧
    (sampleDB.students.find? (fun t => t.id == alice.id) = some alice) ∧
    ∃ pr : Profile,
      student_profile sampleDB alice.id = some pr ∧
      (alice, pr.paid, pr.due) ∈ export_dues sampleDB ∧
      ∀ p d : Int, (alice, p, d) ∈ export_dues sampleDB → p = pr.paid ∧ d = pr.due :=
  ⟨by decide, by decide,
   C6_export_profile_agree sampleDB alice (by decide) (by decide)⟩

/-- Claim C7: since the current day renders as `YYYY-MM-DD` — digits and
dashes, no `LIKE` wildcards and no case-foldable letters — the
dashboard's `date LIKE today+'%'` window sums exactly the fee rows
whose date string literally starts with the day string, and the
windowed sum is 0 when no row matches. -/
theorem C7_dashboard_today (db : DB) (today month : String)
    (htoday : ∀ c ∈ today.toList, c.isDigit ∨ c = '-') :
    (dashboard db today month).today_collection =
      ((db.fees.filter (fun f => today.toList <+: f.date.toList)).map (·.amount)).sum ∧
    ((∀ f ∈ db.fees, ¬ (today.toList <+: f.date.toList)) →
      (dashboard db today month).today_collection = 0) := by
  have hwild : ∀ c ∈ today.toList, c ≠ '%' ∧ c ≠ '_' :=
    fun c hc => plain_not_wild c (htoday c hc)
  have hlt : ∀ c ∈ today.toList, c.toNat < 65 :=
    fun c hc => plain_toNat_lt c (htoday c hc)
  have hfix : today.toList.map Char.toLower = today.toList := map_toLower_fixed _ hlt
  have key : ∀ s : List Char,
      (likeMatch (today.toList ++ ['%']) s = true ↔ today.toList <+: s) := by
    intro s
    rw [likeMatch_trailing_percent _ hwild s, hfix]
    have h2 := map_toLower_prefix_iff today.toList hlt s
    rw [hfix] at h2
    exact h2
  have hfilter : db.fees.filter (fun f => likeMatch (today.toList ++ ['%']) f.date.toList) =
      db.fees.filter (fun f => decide (today.toList <+: f.date.toList)) := by
    apply List.filter_congr
    intro f _
    exact bool_eq_decide (key f.date.toList)
  constructor
  · show sumAmounts (db.fees.filter (fun f => likeMatch (today.toList ++ ['%']) f.date.toList)) = _
    rw [hfilter]
    rfl
  · intro hnone
    show sumAmounts (db.fees.filter (fun f => likeMatch (today.toList ++ ['%']) f.date.toList)) = 0
    rw [hfilter, List.filter_eq_nil_iff.mpr (fun f hf => by simpa using hnone f hf)]
    rfl

/-- Witness for C7: on 2026-10-01 the sample dashboard's today window
holds exactly the 5000 payment. -/
theorem C7_dashboard_today_witness :
    (∀ c ∈ ("2026-10-01" : String).toList, c.isDigit ∨ c = '-') ∧
    ((dashboard sampleDB "2026-10-01" "2026-10").today_collection =
      ((sampleDB.fees.filter
          (fun f => ("2026-10-01" : String).toList <+: f.date.toList)).map (·.amount)).sum ∧
     ((∀ f ∈ sampleDB.fees, ¬ (("2026-10-01" : String).toList <+: f.date.toList)) →
       (dashboard sampleDB "2026-10-01" "2026-10").today_collection = 0)) :=
  ⟨by decide, C7_dashboard_today sampleDB "2026-10-01" "2026-10" (by decide)⟩

/-- Counterexample to C8: the search string is spliced into the
`LIKE` pattern, so its wildcards are interpreted: the query `"_"`
returns both sample students although neither roll nor name contains
`"_"` as a (case-insensitive) substring. -/
theorem C8_counterexample :
    dues_report sampleDB "_" = [(bob, 0, 20000), (alice, 5000, 15000)] ∧
    ¬ ciSubstring "_" bob.roll_no ∧ ¬ ciSubstring "_" bob.name ∧
    ¬ ciSubstring "_" alice.roll_no ∧ ¬ ciSubstring "_" alice.name := by
  decide

/-- Claim C8 amended: for a non-empty, already-stripped query without the
`LIKE` wildcards `%`/`_`, the dues report returns exactly the students
whose roll or name contains the query as a case-insensitive substring,
newest (largest id) first, each with the derived paid/due figures. -/
theorem C8_dues_report_search (db : DB) (q : String)
    (hstrip : pyStrip q = q) (hne : q ≠ "")
    (hwild : ∀ c ∈ q.toList, c ≠ '%' ∧ c ≠ '_')
    (hsorted : List.Pairwise (fun a b : Student => a.id < b.id) db.students) :
    (dues_report db q).map (fun r => r.1) =
      (db.students.filter (fun s =>
        decide (ciSubstring q s.roll_no) || decide (ciSubstring q s.name))).reverse ∧
    (∀ r ∈ dues_report db q,
      r.2.1 = paidOf db r.1.id ∧ r.2.2 = r.1.total_fee - paidOf db r.1.id) ∧
    List.Pairwise (fun a b : Student => b.id < a.id)
      ((dues_report db q).map (fun r => r.1)) ∧
    (∀ q0 : String, pyStrip q0 = "" →
      (dues_report db q0).map (fun r => r.1) = db.students.reverse) := by
  have hq : ∀ s : String,
      likeMatch ('%' :: (q.toList ++ ['%'])) s.toList = decide (ciSubstring q s) :=
    fun s => bool_eq_decide (likeMatch_contains q.toList hwild s.toList)
  have hfilters : db.students.filter (fun s =>
        likeMatch ('%' :: (q.toList ++ ['%'])) s.roll_no.toList ||
        likeMatch ('%' :: (q.toList ++ ['%'])) s.name.toList) =
      db.students.filter (fun s =>
        decide (ciSubstring q s.roll_no) || decide (ciSubstring q s.name)) := by
    apply List.filter_congr
    intro s _
    rw [hq s.roll_no, hq s.name]
  have hrep : dues_report db q =
      ((db.students.filter (fun s =>
          decide (ciSubstring q s.roll_no) || decide (ciSubstring q s.name))).reverse).map
        (fun s => (s, paidOf db s.id, s.total_fee - paidOf db s.id)) := by
    simp only [dues_report, hstrip]
    rw [if_pos hne, hfilters]
    simp only [pyOrZero_eq, paidOf]
  have hcomp : ((fun r : Student × Int × Int => r.1) ∘
      (fun s : Student => (s, paidOf db s.id, s.total_fee - paidOf db s.id))) = id := rfl
  refine ⟨?_, ?_, ?_, ?_⟩
  · rw [hrep, List.map_map, hcomp, List.map_id]
  · intro r hr
    rw [hrep] at hr
    simp only [List.mem_map] at hr
    obtain ⟨s, _, rfl⟩ := hr
    exact ⟨rfl, rfl⟩
  · rw [hrep, List.map_map, hcomp, List.map_id, List.pairwise_reverse]
    exact hsorted.filter _
  · intro q0 hq0
    have hrep0 : dues_report db q0 = db.students.reverse.map
        (fun s => (s, paidOf db s.id, s.total_fee - paidOf db s.id)) := by
      simp only [dues_report, hq0]
      rw [if_neg (by simp)]
      simp only [pyOrZero_eq, paidOf]
    rw [hrep0, List.map_map, hcomp, List.map_id]

/-- Witness for C8 amended: the query "li" finds Alice (by name) and
not Bob, newest first, with the derived figures. -/
theorem C8_dues_report_search_witness :
    (pyStrip "li" = "li") ∧ ("li" : String) ≠ "" ∧
    (∀ c ∈ ("li" : String).toList, c ≠ '%' ∧ c ≠ '_') ∧
    List.Pairwise (fun a b : Student => a.id < b.id) sampleDB.students ∧
    ((dues_report sampleDB "li").map (fun r => r.1) =
      (sampleDB.students.filter (fun s =>
        decide (ciSubstring "li" s.roll_no) || decide (ciSubstring "li" s.name))).reverse ∧
    (∀ r ∈ dues_report sampleDB "li",
      r.2.1 = paidOf sampleDB r.1.id ∧
      r.2.2 = r.1.total_fee - paidOf sampleDB r.1.id) ∧
    List.Pairwise (fun a b : Student => b.id < a.id)
      ((dues_report sampleDB "li").map (fun r => r.1)) ∧
    (∀ q0 : String, pyStrip q0 = "" →
      (dues_report sampleDB q0).map (fun r => r.1) = sampleDB.students.reverse)) :=
  ⟨by decide, by decide, by decide, by decide,
   C8_dues_report_search sampleDB "li" (by decide) (by decide) (by decide) (by decide)⟩

/-- Counterexample to C9: the admission handler performs no field
validation.  A request with empty roll, empty name and negative
total_fee succeeds and inserts the student record. -/
theorem C9_counterexample :
    admission initDB "" "" "" "" "" "" (-5) none =
      .ok ⟨[⟨1, "", "", "", "", "", "", -5, none⟩], [], 2, 1⟩ := by
  decide

/-- Claim C9 amended: admission validates nothing but roll uniqueness:
when the roll is not yet taken, a request with an empty roll, an empty
name or a negative total fee still succeeds and inserts the record. -/
theorem C9_no_validation (db : DB) (name roll c y e p : String) (fee : Int)
    (ph : Option String)
    (hnodup : ∀ s ∈ db.students, s.roll_no ≠ roll)
    (hbad : roll = "" ∨ name = "" ∨ fee < 0) :
    admission db name roll c y e p fee ph =
      .ok { db with
            students := db.students ++
              [⟨db.nextStudentId, name, roll, c, y, e, p, fee, ph⟩],
            nextStudentId := db.nextStudentId + 1 } := by
  have hany : db.students.any (fun s => s.roll_no == roll) = false := by
    rw [List.any_eq_false]
    intro s hs
    simpa using hnodup s hs
  simp [admission, hany]

/-- Witness for C9 amended: an all-empty, negative-fee admission into
the sample database goes through. -/
theorem C9_no_validation_witness :
    (∀ s ∈ sampleDB.students, s.roll_no ≠ "") ∧
    (("" : String) = "" ∨ ("" : String) = "" ∨ (-5 : Int) < 0) ∧
    admission sampleDB "" "" "" "" "" "" (-5) none =
      .ok { sampleDB with
            students := sampleDB.students ++
              [⟨sampleDB.nextStudentId, "", "", "", "", "", "", -5, none⟩],
            nextStudentId := sampleDB.nextStudentId + 1 } :=
  ⟨by decide, by decide,
   C9_no_validation sampleDB "" "" "" "" "" "" (-5) none (by decide) (by decide)⟩

/-- Claim C10: the payment path never compares the amount with the
remaining due: a payment strictly above the current due succeeds and
leaves the derived due negative. -/
theorem C10_overpayment (db : DB) (s : Student) (amount : Int)
    (m rem now : String) (f1 f2 : Bool)
    (hid : db.students.find? (fun t => t.id == s.id) = some s)
    (hroll : db.students.find? (fun t => t.roll_no == s.roll_no) = some s)
    (hover : s.total_fee - paidOf db s.id < amount) :
    ∃ (res : FeesResult) (pr' : Profile),
      feesPost db s.roll_no amount m rem now f1 f2 = .ok res ∧
      student_profile res.db s.id = some pr' ∧
      pr'.due = (s.total_fee - paidOf db s.id) - amount ∧
      pr'.due < 0 := by
  refine ⟨_, _, feesPost_ok db s.roll_no amount m rem now f1 f2 s hroll,
    student_profile_eq _ s.id s hid, ?_, ?_⟩
  · have hins := paidOf_insert db s.id ⟨db.nextFeeId, s.id, amount, now, m, rem⟩ rfl
    simp only [hins]
    omega
  · have hins := paidOf_insert db s.id ⟨db.nextFeeId, s.id, amount, now, m, rem⟩ rfl
    simp only [hins]
    omega

/-- Witness for C10: Alice's due is 15000; a 20000 payment is accepted
and leaves her due at −5000. -/
theorem C10_overpayment_witness :
    (sampleDB.students.find? (fun t => t.id == alice.id) = some alice) ∧
    (sampleDB.students.find? (fun t => t.roll_no == alice.roll_no) = some alice) ∧
    (alice.total_fee - paidOf sampleDB alice.id < 20000) ∧
    ∃ (res : FeesResult) (pr' : Profile),
      feesPost sampleDB alice.roll_no 20000 "card" "" "2026-10-12 12:00:00" false false =
        .ok res ∧
      student_profile res.db alice.id = some pr' ∧
      pr'.due = (alice.total_fee - paidOf sampleDB alice.id) - 20000 ∧
      pr'.due < 0 :=
  ⟨by decide, by decide, by decide,
   C10_overpayment sampleDB alice 20000 "card" "" "2026-10-12 12:00:00" false false
     (by decide) (by decide) (by decide)⟩

end CollegeFees
